import Mathlib

/-!
Verification development for the polyviewer image viewer
(`src/app.py`, with `src/_app.py` as a near-duplicate variant).

The server side (numpy pipeline) is embedded with arrays modelled as a
shape (list of dimension sizes) together with a total indexing function.
Element values are modelled by `FVal`, an exact rational carrier extended
with the three IEEE non-finite values that the numpy code can observe
(`+inf`, `-inf`, `nan`).  Fallible numpy operations (out-of-range
indexing, reductions over zero-size arrays) return `Except PyError`.

The client side (viewer state in the embedded JavaScript of
`INDEX_HTML`) is embedded as a record of rationals plus per-slot image
cells, with each event handler translated to a state-transition
function.
-/

namespace PolyViewer

/-- Element types that the pipeline distinguishes.  The code only ever
tests `arr.dtype == np.uint8`; the other constructors stand for the
remaining numeric dtypes an upload can produce. -/
inductive Dtype where
  | uint8
  | int16
  | int32
  | float32
  | float64
deriving DecidableEq, Repr

/-- Exact model of a numpy scalar as seen by this code: a rational for
every finite value, plus the IEEE specials. -/
inductive FVal where
  | fin (q : ℚ)
  | pinf
  | ninf
  | nan
deriving DecidableEq, Repr

/-- Exceptions the embedded numpy calls can raise, plus the spec's
documented `EmptyArray` error kind.  The code itself never constructs
`emptyArray`; the constructor exists so that the spec's claimed failure
semantics is statable against the code. -/
inductive PyError where
  | indexError
  | valueError
  | emptyArray
deriving DecidableEq, Repr

namespace FVal

/-- IEEE NaN test. -/
def isNaN : FVal → Bool
  | .nan => true
  | _ => false

/-- Finite (neither infinite nor NaN). -/
def isFiniteV : FVal → Bool
  | .fin _ => true
  | _ => false

/-- Total order `a ≤ b` on the non-NaN values (`-inf < finite < +inf`);
NaN compares false either way, as in IEEE. -/
def fle : FVal → FVal → Bool
  | .nan, _ => false
  | _, .nan => false
  | .ninf, _ => true
  | .fin _, .ninf => false
  | .fin a, .fin b => a ≤ b
  | .fin _, .pinf => true
  | .pinf, .pinf => true
  | .pinf, _ => false

/-- IEEE equality: NaN equals nothing, infinities equal themselves. -/
def feq : FVal → FVal → Bool
  | .nan, _ => false
  | _, .nan => false
  | .fin a, .fin b => a = b
  | .pinf, .pinf => true
  | .ninf, .ninf => true
  | _, _ => false

/-- Binary minimum over non-NaN values. -/
def fminV (a b : FVal) : FVal := if fle a b then a else b

/-- Binary maximum over non-NaN values. -/
def fmaxV (a b : FVal) : FVal := if fle a b then b else a

/-- NaN-skipping lift of a binary operation: prefer the non-NaN operand
(how numpy's `fmin`/`fmax` kernels treat NaN). -/
def skipNaN (op : FVal → FVal → FVal) (a b : FVal) : FVal :=
  if a.isNaN then b else if b.isNaN then a else op a b

/-- numpy's `fmin`: NaN-skipping minimum (the reduction kernel
underlying `np.nanmin`). -/
def fminSkip : FVal → FVal → FVal := skipNaN fminV

/-- numpy's `fmax`: NaN-skipping maximum (reduction kernel of
`np.nanmax`). -/
def fmaxSkip : FVal → FVal → FVal := skipNaN fmaxV

/-- IEEE subtraction on the model (`inf - inf = nan`, NaN propagates). -/
def fsub : FVal → FVal → FVal
  | .nan, _ => .nan
  | _, .nan => .nan
  | .fin a, .fin b => .fin (a - b)
  | .fin _, .pinf => .ninf
  | .fin _, .ninf => .pinf
  | .pinf, .pinf => .nan
  | .pinf, _ => .pinf
  | .ninf, .ninf => .nan
  | .ninf, _ => .ninf

/-- IEEE division on the model.  numpy float division by zero yields a
signed infinity (or NaN for `0/0`) with a runtime warning. -/
def fdiv : FVal → FVal → FVal
  | .nan, _ => .nan
  | _, .nan => .nan
  | .fin a, .fin b =>
      if b = 0 then (if a = 0 then .nan else if 0 < a then .pinf else .ninf)
      else .fin (a / b)
  | .fin _, .pinf => .fin 0
  | .fin _, .ninf => .fin 0
  | .pinf, .fin b => if 0 ≤ b then .pinf else .ninf
  | .ninf, .fin b => if 0 ≤ b then .ninf else .pinf
  | .pinf, .pinf => .nan
  | .pinf, .ninf => .nan
  | .ninf, .pinf => .nan
  | .ninf, .ninf => .nan

/-- IEEE addition on the model (`inf + -inf = nan`, NaN propagates). -/
def fadd : FVal → FVal → FVal
  | .nan, _ => .nan
  | _, .nan => .nan
  | .fin a, .fin b => .fin (a + b)
  | .fin _, .pinf => .pinf
  | .fin _, .ninf => .ninf
  | .pinf, .ninf => .nan
  | .pinf, _ => .pinf
  | .ninf, .pinf => .nan
  | .ninf, _ => .ninf

/-- IEEE multiplication on the model (`inf * 0 = nan`, NaN propagates). -/
def fmul : FVal → FVal → FVal
  | .nan, _ => .nan
  | _, .nan => .nan
  | .fin a, .fin b => .fin (a * b)
  | .fin a, .pinf => if a = 0 then .nan else if 0 < a then .pinf else .ninf
  | .fin a, .ninf => if a = 0 then .nan else if 0 < a then .ninf else .pinf
  | .pinf, .fin b => if b = 0 then .nan else if 0 < b then .pinf else .ninf
  | .ninf, .fin b => if b = 0 then .nan else if 0 < b then .ninf else .pinf
  | .pinf, .pinf => .pinf
  | .pinf, .ninf => .ninf
  | .ninf, .pinf => .ninf
  | .ninf, .ninf => .pinf

/-- `np.clip(x, lo, hi)`: clamps finite values, maps the infinities to
the bounds, and propagates NaN (as numpy's clip does). -/
def fclip (v : FVal) (lo hi : ℚ) : FVal :=
  match v with
  | .nan => .nan
  | .pinf => .fin hi
  | .ninf => .fin lo
  | .fin q => .fin (max lo (min hi q))

/-- Truncation toward zero of a rational, numpy's float→int cast. -/
def ratTruncate (q : ℚ) : ℤ := q.num / q.den

/-- `astype("uint8")` on a float value.  In the pipeline this is only
reached after `clip(·,0,1) * 255`, so the value is a rational in
`[0, 255]` or NaN; the float→uint8 cast of a NaN is platform-defined in
numpy and is modelled as 0 (no claim depends on it). -/
def toUint8cast : FVal → FVal
  | .fin q => .fin (ratTruncate q : ℤ)
  | _ => .fin 0

end FVal

/-- A numpy array: dtype, shape, and a total indexing function.
Indexing outside the shape is junk (never observed by the theorems). -/
structure NDArr where
  dtype : Dtype
  shape : List Nat
  get : List Nat → FVal

/-- All multi-indices of a shape, in C (row-major) order. -/
def indicesOf : List Nat → List (List Nat)
  | [] => [[]]
  | d :: ds => (List.range d).flatMap (fun i => (indicesOf ds).map (fun ix => i :: ix))

/-- The element list of an array, in C order — what a numpy full-array
reduction such as `np.nanmin(arr)` reduces over. -/
def arrElems (a : NDArr) : List FVal := (indicesOf a.shape).map a.get

/-- Reduction core of `np.nanmin` over a non-empty element list:
NaN-skipping fold. -/
def nanminList : List FVal → FVal
  | [] => .nan
  | x :: xs => xs.foldl FVal.fminSkip x

/-- Reduction core of `np.nanmax` over a non-empty element list. -/
def nanmaxList : List FVal → FVal
  | [] => .nan
  | x :: xs => xs.foldl FVal.fmaxSkip x

/-- `np.nanmin`: raises `ValueError` on a zero-size array, ignores NaNs
otherwise (returning NaN, with a warning, only when every element is
NaN). -/
def nanmin (xs : List FVal) : Except PyError FVal :=
  if xs = [] then .error .valueError else .ok (nanminList xs)

/-- `np.nanmax`: same failure behaviour as `nanmin`. -/
def nanmax (xs : List FVal) : Except PyError FVal :=
  if xs = [] then .error .valueError else .ok (nanmaxList xs)

/-- `np.squeeze`: drop every axis of size 1. -/
def squeezeShape (s : List Nat) : List Nat := s.filter (fun d => d ≠ 1)

/-- Map an index into the squeezed array back to an index into the
original: size-1 axes contribute a fixed 0. -/
def unsqueezeIdx : List Nat → List Nat → List Nat
  | [], _ => []
  | d :: ds, ix =>
      if d = 1 then 0 :: unsqueezeIdx ds ix
      else
        match ix with
        | [] => 0 :: unsqueezeIdx ds []
        | i :: is => i :: unsqueezeIdx ds is

/-- `np.squeeze` on an array. -/
def squeeze (a : NDArr) : NDArr :=
  ⟨a.dtype, squeezeShape a.shape, fun ix => a.get (unsqueezeIdx a.shape ix)⟩

/-- Embedding of `select_display_array` (src/app.py lines 40–78).
Branches in source order: rank 2 identity; rank 4 `arr[0, 0]`; rank 3
channel-first heuristic (`shape[0] ≤ 16` and square trailing axes);
rank 3 channel-last (`shape[-1] ≤ 16`); fallback `np.squeeze(arr[0])`.
`arr[0]` / `arr[0, 0]` raise `IndexError` when the indexed axis is
missing (rank 0) or has size 0. -/
def select_display_array (a : NDArr) : Except PyError NDArr :=
  let s := a.shape
  if s.length = 2 then .ok a
  else if s.length = 4 then
    if s.getD 0 0 = 0 ∨ s.getD 1 0 = 0 then .error .indexError
    else .ok ⟨a.dtype, s.drop 2, fun ix => a.get (0 :: 0 :: ix)⟩
  else if s.length = 3 ∧ s.getD 0 0 ≤ 16 ∧ s.getD 1 0 = s.getD 2 0 then
    let c := s.getD 0 0
    if c = 1 then .ok ⟨a.dtype, s.drop 1, fun ix => a.get (0 :: ix)⟩
    else
      .ok ⟨a.dtype, [s.getD 1 0, s.getD 2 0, min 3 c], fun ix =>
        match ix with
        | [i, j, k] => a.get [k, i, j]
        | _ => a.get ix⟩
  else if s.length = 3 ∧ s.getD 2 0 ≤ 16 then
    let c := s.getD 2 0
    if c ≤ 4 then .ok a
    else .ok ⟨a.dtype, [s.getD 0 0, s.getD 1 0, 3], a.get⟩
  else
    if s.length = 0 ∨ s.getD 0 0 = 0 then .error .indexError
    else .ok (squeeze ⟨a.dtype, s.drop 1, fun ix => a.get (0 :: ix)⟩)

/-- The `(vmin, vmax)` pair `normalize_to_uint8` computes with
`np.nanmin` / `np.nanmax` (src/app.py lines 86–87). -/
def rescaleRange (a : NDArr) : Except PyError (FVal × FVal) :=
  match nanmin (arrElems a), nanmax (arrElems a) with
  | .ok mn, .ok mx => .ok (mn, mx)
  | _, _ => .error .valueError

/-- Embedding of `normalize_to_uint8` (src/app.py lines 81–92): uint8
identity short-circuit; otherwise cast to float (exact in this model),
take `nanmin`/`nanmax`, return zeros when they are equal (IEEE `==`),
and otherwise rescale pointwise with `clip(·,0,1) * 255` cast to uint8. -/
def normalize_to_uint8 (a : NDArr) : Except PyError NDArr :=
  if a.dtype = Dtype.uint8 then .ok a
  else
    match rescaleRange a with
    | .error e => .error e
    | .ok (vmin, vmax) =>
      if FVal.feq vmax vmin then
        .ok ⟨Dtype.uint8, a.shape, fun _ => .fin 0⟩
      else
        .ok ⟨Dtype.uint8, a.shape, fun ix =>
          FVal.toUint8cast
            (FVal.fmul (FVal.fclip (FVal.fdiv (FVal.fsub (a.get ix) vmin)
              (FVal.fsub vmax vmin)) 0 1) (.fin 255))⟩

/-- Shape class of a valid `DisplaySlice`: rank exactly 2, or rank 3
with last axis of size at most 4. -/
def isDisplayShape (s : List Nat) : Bool :=
  s.length = 2 ∨ (s.length = 3 ∧ s.getD 2 0 ≤ 4)

/-- The DisplaySlice postcondition on a resolver outcome: returned
without raising, with a valid display shape. -/
def displayOk : Except PyError NDArr → Bool
  | .ok r => isDisplayShape r.shape
  | .error _ => false

/-- Embedding of `array_to_png_bytes`'s mean-over-last-axis fallback
(`np.mean(arr, axis=-1)`, src/app.py line 105).  numpy's mean returns a
float array. -/
def meanLastAxis (a : NDArr) : NDArr :=
  let n := a.shape.getLastD 1
  ⟨Dtype.float64, a.shape.dropLast, fun ix =>
    FVal.fdiv ((List.range n).foldl (fun acc k =>
      FVal.fadd acc (a.get (ix ++ [k]))) (.fin 0)) (.fin n)⟩

/-- Embedding of `array_to_png_bytes` (src/app.py lines 95–113).  PNG
encoding itself is the external Pillow collaborator, abstracted as the
`encodePNG` argument; the function normalizes, picks the L/RGB/RGBA
mode by shape, and otherwise averages channels and re-normalizes. -/
def array_to_png_bytes (encodePNG : NDArr → List Nat) (a : NDArr) :
    Except PyError (List Nat) := do
  let r ← normalize_to_uint8 a
  if r.shape.length = 2 then pure (encodePNG r)
  else if r.shape.length = 3 ∧ r.shape.getD 2 0 = 3 then pure (encodePNG r)
  else if r.shape.length = 3 ∧ r.shape.getD 2 0 = 4 then pure (encodePNG r)
  else do
    let m := meanLastAxis r
    let r2 ← normalize_to_uint8 m
    pure (encodePNG r2)

/-- An upload request as the route sees it: whether the multipart form
has a `file` field, and that file's name and bytes. -/
structure UploadReq where
  hasFile : Bool
  filename : String
  bytes : List Nat

/-- HTTP response of the upload route: a plain-text body with a status
code, or PNG bytes (status 200). -/
inductive HttpResp where
  | text (body : String) (status : Nat)
  | png (bytes : List Nat)
deriving DecidableEq, Repr

/-- The `f"Error: {e}"` body of the route's blanket exception handler. -/
def errorBody : PyError → String
  | .indexError => "Error: IndexError"
  | .valueError => "Error: ValueError"
  | .emptyArray => "Error: EmptyArray"

/-- Embedding of the `upload` route (src/app.py lines 429–456).  The
decoder (`load_tif_or_image`, i.e. tifffile/Pillow) is the external
collaborator `decode`, a deterministic function of filename and bytes.
The `side` path parameter is received exactly as in the source. -/
def upload (decode : String → List Nat → Except PyError NDArr)
    (encodePNG : NDArr → List Nat) (side : String) (req : UploadReq) : HttpResp :=
  if !req.hasFile then .text "No file uploaded" 400
  else if req.filename = "" then .text "No filename" 400
  else
    match (do
      let arr ← decode req.filename req.bytes
      let disp ← select_display_array arr
      array_to_png_bytes encodePNG disp : Except PyError (List Nat)) with
    | .ok png => .png png
    | .error e => .text (errorBody e) 500

/-! ### Client-side view model (the script in `INDEX_HTML`, src/app.py) -/

/-- The four panel slots of the 4-panel viewer. -/
inductive Side where
  | tl
  | tr
  | bl
  | br
deriving DecidableEq, Repr

/-- A decoded client image: pixel dimensions plus an opaque content tag
distinguishing images of equal size. -/
structure Img where
  width : ℚ
  height : ℚ
  data : Nat
deriving DecidableEq, Repr

/-- The shared client state: the one `scale`/`offsetX`/`offsetY`
transform, the canonical dimensions `imgWidth`/`imgHeight` (JS `null`
before the first load), and the per-slot `images` cells. -/
structure ClientState where
  scale : ℚ
  offsetX : ℚ
  offsetY : ℚ
  imgWidth : Option ℚ
  imgHeight : Option ℚ
  images : Side → Option Img

/-- JS truthiness of `imgWidth` / `imgHeight`: `null` and `0` are falsy. -/
def truthy : Option ℚ → Bool
  | none => false
  | some v => v ≠ 0

/-- Numeric value of a canonical dimension (only read under a `truthy`
guard in the source). -/
def getQ : Option ℚ → ℚ
  | none => 0
  | some v => v

/-- The initial state: `scale = 1.0`, offsets 0, no canonical
dimensions, no panel populated. -/
def initState : ClientState :=
  { scale := 1, offsetX := 0, offsetY := 0,
    imgWidth := none, imgHeight := none, images := fun _ => none }

/-- Embedding of `resetView` (src/app.py lines 252–264): fit the
canonical image into the drawing area `rectW × rectH` and center it.
The early return fires when no image is loaded. -/
def resetView (rectW rectH : ℚ) (s : ClientState) : ClientState :=
  if !(truthy s.imgWidth) || !(truthy s.imgHeight) then s
  else
    let w := getQ s.imgWidth
    let h := getQ s.imgHeight
    let sc := min (rectW / w) (rectH / h)
    { s with scale := sc,
             offsetX := (rectW - w * sc) / 2,
             offsetY := (rectH - h * sc) / 2 }

/-- Embedding of `handleWheel` (src/app.py lines 353–373): anchored
zoom.  `zoomIn` is `event.deltaY < 0`.  A candidate scale outside
`[0.05, 20]` leaves the state unchanged; otherwise the offsets are
recomputed so the world point under the cursor stays put. -/
def handleWheel (x y : ℚ) (zoomIn : Bool) (s : ClientState) : ClientState :=
  if !(truthy s.imgWidth) || !(truthy s.imgHeight) then s
  else
    let zoomFactor : ℚ := if zoomIn then 11/10 else 9/10
    let newScale := s.scale * zoomFactor
    if newScale < 1/20 ∨ 20 < newScale then s
    else
      let worldX := (x - s.offsetX) / s.scale
      let worldY := (y - s.offsetY) / s.scale
      { s with scale := newScale,
               offsetX := x - worldX * newScale,
               offsetY := y - worldY * newScale }

/-- Embedding of a pan step (`handleMouseMove` while panning,
src/app.py lines 382–392): unconditional offset translation. -/
def panBy (dx dy : ℚ) (s : ClientState) : ClientState :=
  { s with offsetX := s.offsetX + dx, offsetY := s.offsetY + dy }

/-- Store an image into one slot (`images[side] = img`). -/
def storeImage (side : Side) (img : Img) (s : ClientState) : ClientState :=
  { s with images := fun s' => if s' = side then some img else s.images s' }

/-- Embedding of `setLoadedImage` (src/app.py lines 292–309): establish
canonical dimensions on the first truthy load; reject a mismatching
image with an alert and no mutation; otherwise store the image and
reset the shared view to fit the drawing area `rectW × rectH`. -/
def setLoadedImage (img : Img) (side : Side) (rectW rectH : ℚ)
    (s : ClientState) : ClientState :=
  if !(truthy s.imgWidth) || !(truthy s.imgHeight) then
    resetView rectW rectH (storeImage side img
      { s with imgWidth := some img.width, imgHeight := some img.height })
  else if s.imgWidth ≠ some img.width ∨ s.imgHeight ≠ some img.height then s
  else resetView rectW rectH (storeImage side img s)

/-- The controller operations a session can issue after load: anchored
zoom, pan, and fit-to-area/reset (the reset button, a window resize, or
the reset performed by a load). -/
inductive ViewOp where
  | wheel (x y : ℚ) (zoomIn : Bool)
  | pan (dx dy : ℚ)
  | reset (rectW rectH : ℚ)
deriving DecidableEq, Repr

/-- Apply one controller operation. -/
def applyOp (s : ClientState) : ViewOp → ClientState
  | .wheel x y zi => handleWheel x y zi s
  | .pan dx dy => panBy dx dy s
  | .reset rw rh => resetView rw rh s

/-- Apply a sequence of controller operations, oldest first. -/
def applyOps (s : ClientState) (ops : List ViewOp) : ClientState :=
  ops.foldl applyOp s

/-- Operations that are zoom or pan steps (not fit/reset). -/
def isZoomOrPan : ViewOp → Bool
  | .reset _ _ => false
  | _ => true

/-! ### Helper lemmas -/

/-- Fold of a non-empty list by a binary operation, the shape of
numpy's reductions; on the empty list the value is irrelevant. -/
def listFoldV (op : FVal → FVal → FVal) : List FVal → FVal
  | [] => .nan
  | x :: xs => xs.foldl op x

lemma fminV_isNaN (a b : FVal) (ha : a.isNaN = false) (hb : b.isNaN = false) :
    (FVal.fminV a b).isNaN = false := by
  unfold FVal.fminV; split <;> assumption

lemma fmaxV_isNaN (a b : FVal) (ha : a.isNaN = false) (hb : b.isNaN = false) :
    (FVal.fmaxV a b).isNaN = false := by
  unfold FVal.fmaxV; split <;> assumption

lemma foldl_skipNaN_eq_filter (op : FVal → FVal → FVal)
    (hop : ∀ a b, a.isNaN = false → b.isNaN = false → (op a b).isNaN = false)
    (xs : List FVal) :
    ∀ (acc : FVal), acc.isNaN = false →
      xs.foldl (FVal.skipNaN op) acc = (xs.filter (fun v => !v.isNaN)).foldl op acc := by
  induction xs with
  | nil => intro acc _; rfl
  | cons x xs ih =>
    intro acc hacc
    by_cases hx : x.isNaN = true
    · have h1 : FVal.skipNaN op acc x = acc := by
        simp [FVal.skipNaN, hacc, hx]
      simp only [List.foldl_cons, h1, List.filter_cons, hx, Bool.not_true,
        Bool.false_eq_true, if_false]
      exact ih acc hacc
    · have hx' : x.isNaN = false := by simpa using hx
      have h1 : FVal.skipNaN op acc x = op acc x := by
        simp [FVal.skipNaN, hacc, hx']
      simp only [List.foldl_cons, h1, List.filter_cons, hx', Bool.not_false, if_true]
      exact ih (op acc x) (hop acc x hacc hx')

lemma foldl_skipNaN_nanAcc (op : FVal → FVal → FVal)
    (hop : ∀ a b, a.isNaN = false → b.isNaN = false → (op a b).isNaN = false)
    (xs : List FVal) :
    xs.filter (fun v => !v.isNaN) ≠ [] →
      xs.foldl (FVal.skipNaN op) .nan = listFoldV op (xs.filter (fun v => !v.isNaN)) := by
  induction xs with
  | nil => intro h; exact absurd rfl h
  | cons x xs ih =>
    intro h
    by_cases hx : x.isNaN = true
    · have h1 : FVal.skipNaN op .nan x = .nan := by
        cases x <;> simp_all [FVal.skipNaN, FVal.isNaN]
      have hf : (x :: xs).filter (fun v => !v.isNaN) = xs.filter (fun v => !v.isNaN) := by
        simp [List.filter_cons, hx]
      rw [List.foldl_cons, h1, hf]
      exact ih (by rw [hf] at h; exact h)
    · have hx' : x.isNaN = false := by simpa using hx
      have h1 : FVal.skipNaN op .nan x = x := by
        simp [FVal.skipNaN, FVal.isNaN]
      have hf : (x :: xs).filter (fun v => !v.isNaN) = x :: xs.filter (fun v => !v.isNaN) := by
        simp [List.filter_cons, hx']
      rw [List.foldl_cons, h1, hf, listFoldV]
      exact foldl_skipNaN_eq_filter op hop xs x hx'

lemma nanminList_eq_filter (xs : List FVal)
    (h : xs.filter (fun v => !v.isNaN) ≠ []) :
    nanminList xs = listFoldV FVal.fminV (xs.filter (fun v => !v.isNaN)) := by
  cases xs with
  | nil => exact absurd rfl h
  | cons x rest =>
    show rest.foldl (FVal.skipNaN FVal.fminV) x = _
    by_cases hx : x.isNaN = true
    · have hxn : x = .nan := by cases x <;> simp_all [FVal.isNaN]
      have hf : (x :: rest).filter (fun v => !v.isNaN) = rest.filter (fun v => !v.isNaN) := by
        simp [List.filter_cons, hx]
      rw [hf, hxn]
      exact foldl_skipNaN_nanAcc FVal.fminV fminV_isNaN rest (by rw [hf] at h; exact h)
    · have hx' : x.isNaN = false := by simpa using hx
      have hf : (x :: rest).filter (fun v => !v.isNaN) = x :: rest.filter (fun v => !v.isNaN) := by
        simp [List.filter_cons, hx']
      rw [hf, listFoldV]
      exact foldl_skipNaN_eq_filter FVal.fminV fminV_isNaN rest x hx'

lemma nanmaxList_eq_filter (xs : List FVal)
    (h : xs.filter (fun v => !v.isNaN) ≠ []) :
    nanmaxList xs = listFoldV FVal.fmaxV (xs.filter (fun v => !v.isNaN)) := by
  cases xs with
  | nil => exact absurd rfl h
  | cons x rest =>
    show rest.foldl (FVal.skipNaN FVal.fmaxV) x = _
    by_cases hx : x.isNaN = true
    · have hxn : x = .nan := by cases x <;> simp_all [FVal.isNaN]
      have hf : (x :: rest).filter (fun v => !v.isNaN) = rest.filter (fun v => !v.isNaN) := by
        simp [List.filter_cons, hx]
      rw [hf, hxn]
      exact foldl_skipNaN_nanAcc FVal.fmaxV fmaxV_isNaN rest (by rw [hf] at h; exact h)
    · have hx' : x.isNaN = false := by simpa using hx
      have hf : (x :: rest).filter (fun v => !v.isNaN) = x :: rest.filter (fun v => !v.isNaN) := by
        simp [List.filter_cons, hx']
      rw [hf, listFoldV]
      exact foldl_skipNaN_eq_filter FVal.fmaxV fmaxV_isNaN rest x hx'

lemma foldl_fix (op : FVal → FVal → FVal) (c : FVal) (hop : op c c = c)
    (xs : List FVal) : (∀ v ∈ xs, v = c) → xs.foldl op c = c := by
  induction xs with
  | nil => intro _; rfl
  | cons x xs ih =>
    intro h
    rw [List.foldl_cons, h x (List.mem_cons_self x xs), hop]
    exact ih fun v hv => h v (List.mem_cons_of_mem _ hv)

lemma nanminList_const (c : ℚ) (xs : List FVal) (hne : xs ≠ [])
    (hc : ∀ v ∈ xs, v = .fin c) : nanminList xs = .fin c := by
  cases xs with
  | nil => exact absurd rfl hne
  | cons x rest =>
    rw [nanminList, hc x (List.mem_cons_self x rest)]
    exact foldl_fix _ _ (by simp [FVal.fminSkip, FVal.skipNaN, FVal.isNaN, FVal.fminV, FVal.fle])
      rest fun v hv => hc v (List.mem_cons_of_mem _ hv)

lemma nanmaxList_const (c : ℚ) (xs : List FVal) (hne : xs ≠ [])
    (hc : ∀ v ∈ xs, v = .fin c) : nanmaxList xs = .fin c := by
  cases xs with
  | nil => exact absurd rfl hne
  | cons x rest =>
    rw [nanmaxList, hc x (List.mem_cons_self x rest)]
    exact foldl_fix _ _ (by simp [FVal.fmaxSkip, FVal.skipNaN, FVal.isNaN, FVal.fmaxV, FVal.fle])
      rest fun v hv => hc v (List.mem_cons_of_mem _ hv)

lemma length_flatMap_consMap (L : List (List Nat)) (l : List Nat) :
    (l.flatMap (fun i => L.map (fun ix => i :: ix))).length = l.length * L.length := by
  induction l with
  | nil => simp
  | cons a l ih =>
    simp only [List.flatMap_cons, List.length_append, List.length_map, ih, List.length_cons]
    ring

lemma length_indicesOf (s : List Nat) : (indicesOf s).length = s.prod := by
  induction s with
  | nil => rfl
  | cons d ds ih =>
    rw [indicesOf, length_flatMap_consMap, List.length_range, ih, List.prod_cons]

lemma arrElems_eq_nil_iff (a : NDArr) : arrElems a = [] ↔ a.shape.prod = 0 := by
  rw [arrElems, List.map_eq_nil_iff, ← List.length_eq_zero, length_indicesOf]

lemma getD_two_of_three (p q r : Nat) : ([p, q, r] : List Nat).getD 2 0 = r := rfl

/-! ### Claim C1 -/

/-- A rank-1 float array of two elements. -/
def c1arr : NDArr := ⟨.float32, [2], fun _ => .fin 0⟩

/-- C1 counterexample: `select_display_array` is not always a valid
DisplaySlice — on the rank-1 array `c1arr` the fallback
`np.squeeze(arr[0])` produces a rank-0 array, violating the rank-2-or-3
invariant. -/
theorem resolve_rank1_not_display :
    (select_display_array c1arr).map (fun r => r.shape) = Except.ok ([] : List Nat) ∧
    displayOk (select_display_array c1arr) = false :=
  ⟨rfl, by decide⟩

/-- C1 (amended): the DisplaySlice postcondition holds for every rank-2
input, every rank-4 input whose first two axes are nonzero, and every
rank-3 input caught by one of the two channel heuristics (first axis
≤ 16 with equal trailing axes, or last axis ≤ 16); the fallback path for
other ranks/shapes gives no such guarantee. -/
theorem resolve_display_invariant_amended (a : NDArr)
    (h : a.shape.length = 2 ∨
         (a.shape.length = 4 ∧ 0 < a.shape.getD 0 0 ∧ 0 < a.shape.getD 1 0) ∨
         (a.shape.length = 3 ∧
           (a.shape.getD 0 0 ≤ 16 ∧ a.shape.getD 1 0 = a.shape.getD 2 0 ∨
            a.shape.getD 2 0 ≤ 16))) :
    displayOk (select_display_array a) = true := by
  rcases h with h2 | ⟨h4, hz, hc⟩ | ⟨h3, hcase⟩
  · simp [select_display_array, displayOk, isDisplayShape, h2]
  · rw [select_display_array]
    rw [if_neg (by omega), if_pos h4, if_neg (by omega)]
    simp [displayOk, isDisplayShape, List.length_drop, h4]
  · rw [select_display_array]
    rw [if_neg (by omega), if_neg (by omega)]
    by_cases hcf : a.shape.getD 0 0 ≤ 16 ∧ a.shape.getD 1 0 = a.shape.getD 2 0
    · rw [if_pos ⟨h3, hcf.1, hcf.2⟩]
      by_cases hc1 : a.shape.getD 0 0 = 1
      · rw [if_pos hc1]
        simp [displayOk, isDisplayShape, List.length_drop, h3]
      · rw [if_neg hc1]
        simp only [displayOk, isDisplayShape, decide_eq_true_eq]
        right
        refine ⟨rfl, ?_⟩
        rw [getD_two_of_three]
        omega
    · rw [if_neg (by tauto)]
      have hcl : a.shape.getD 2 0 ≤ 16 := by tauto
      rw [if_pos ⟨h3, hcl⟩]
      by_cases hc4 : a.shape.getD 2 0 ≤ 4
      · rw [if_pos hc4]
        simp only [displayOk, isDisplayShape, decide_eq_true_eq]
        right
        exact ⟨h3, hc4⟩
      · rw [if_neg hc4]
        simp only [displayOk, isDisplayShape, decide_eq_true_eq]
        right
        refine ⟨rfl, ?_⟩
        rw [getD_two_of_three]
        omega

/-- Witness for the amended C1 at a concrete rank-4 input. -/
def c1warr : NDArr := ⟨.uint8, [2, 3, 4, 5], fun _ => .fin 0⟩

/-- C1 amended, instantiated: the rank-4 array `c1warr` satisfies the
hypothesis and the resolver output is a valid DisplaySlice. -/
theorem resolve_display_invariant_amended_witness :
    (c1warr.shape.length = 2 ∨
      (c1warr.shape.length = 4 ∧ 0 < c1warr.shape.getD 0 0 ∧ 0 < c1warr.shape.getD 1 0) ∨
      (c1warr.shape.length = 3 ∧
        (c1warr.shape.getD 0 0 ≤ 16 ∧ c1warr.shape.getD 1 0 = c1warr.shape.getD 2 0 ∨
         c1warr.shape.getD 2 0 ≤ 16))) ∧
    displayOk (select_display_array c1warr) = true :=
  ⟨by decide, resolve_display_invariant_amended c1warr (by decide)⟩

/-! ### Claim C6 -/

/-- C6: a rank-3 channel-first input `(C, H, W)` with `2 ≤ C ≤ 16` and
`H = W` resolves to a channel-last array of shape `(H, W, min C 3)`
whose channels are the first `min C 3` input channels moved to the last
axis. -/
theorem resolve_channel_first_min3 (a : NDArr) (c h w : Nat)
    (hs : a.shape = [c, h, w]) (hc2 : 2 ≤ c) (hc16 : c ≤ 16) (hhw : h = w) :
    ∃ r, select_display_array a = .ok r ∧ r.shape = [h, w, min c 3] ∧
      ∀ i j k, i < h → j < w → k < min c 3 → r.get [i, j, k] = a.get [k, i, j] := by
  subst hhw
  rw [select_display_array]
  rw [if_neg (by rw [hs]; simp), if_neg (by rw [hs]; simp),
    if_pos (by rw [hs]; exact ⟨rfl, by simpa using hc16, rfl⟩),
    if_neg (by rw [hs]; simp; omega)]
  refine ⟨_, rfl, ?_, ?_⟩
  · rw [hs]
    simp [Nat.min_comm]
  · intro i j k _ _ _
    rfl

/-- Witness input for C6: a `(2, 5, 5)` channel-first array. -/
def c6arr : NDArr := ⟨.uint8, [2, 5, 5], fun ix => .fin (ix.headD 0)⟩

/-- C6, instantiated at `c6arr`. -/
theorem resolve_channel_first_min3_witness :
    c6arr.shape = [2, 5, 5] ∧ 2 ≤ 2 ∧ 2 ≤ 16 ∧ 5 = 5 ∧
    ∃ r, select_display_array c6arr = .ok r ∧ r.shape = [5, 5, min 2 3] ∧
      ∀ i j k, i < 5 → j < 5 → k < min 2 3 → r.get [i, j, k] = c6arr.get [k, i, j] :=
  ⟨rfl, by decide, by decide, rfl,
    resolve_channel_first_min3 c6arr 2 5 5 rfl (by decide) (by decide) rfl⟩

/-! ### Claim C2 -/

/-- A constant uint8 array: one element of value 7. -/
def c2arr : NDArr := ⟨.uint8, [1], fun _ => .fin 7⟩

/-- C2 counterexample: on the constant uint8 array `c2arr` the dtype
short-circuit returns the array unchanged, so the result element is 7,
not 0 — `normalize_to_uint8` does not zero constant uint8 arrays. -/
theorem normalize_const_uint8_not_zero :
    normalize_to_uint8 c2arr = .ok c2arr ∧ c2arr.get [0] = FVal.fin 7 ∧
    FVal.fin 7 ≠ FVal.fin 0 :=
  ⟨rfl, rfl, by decide⟩

/-- C2 (amended): for every non-empty constant-valued array of any
dtype other than uint8, `normalize_to_uint8` returns an all-zero array
of the same shape (uint8 inputs are returned unchanged instead). -/
theorem normalize_const_zero_amended (a : NDArr) (c : ℚ)
    (hd : a.dtype ≠ Dtype.uint8)
    (hne : arrElems a ≠ [])
    (hc : ∀ v ∈ arrElems a, v = FVal.fin c) :
    ∃ r, normalize_to_uint8 a = .ok r ∧ r.shape = a.shape ∧
      ∀ ix, r.get ix = FVal.fin 0 := by
  have hmin : nanmin (arrElems a) = .ok (.fin c) := by
    rw [nanmin, if_neg hne, nanminList_const c _ hne hc]
  have hmax : nanmax (arrElems a) = .ok (.fin c) := by
    rw [nanmax, if_neg hne, nanmaxList_const c _ hne hc]
  have hr : rescaleRange a = .ok (.fin c, .fin c) := by
    rw [rescaleRange, hmin, hmax]
  refine ⟨⟨Dtype.uint8, a.shape, fun _ => .fin 0⟩, ?_, rfl, fun _ => rfl⟩
  rw [normalize_to_uint8, if_neg hd, hr]
  simp [FVal.feq]

/-- Witness input for the amended C2: a constant float array. -/
def c2warr : NDArr := ⟨.float32, [2], fun _ => .fin 5⟩

/-- C2 amended, instantiated at `c2warr`. -/
theorem normalize_const_zero_amended_witness :
    c2warr.dtype ≠ Dtype.uint8 ∧ arrElems c2warr ≠ [] ∧
    (∀ v ∈ arrElems c2warr, v = FVal.fin 5) ∧
    (∃ r, normalize_to_uint8 c2warr = .ok r ∧ r.shape = c2warr.shape ∧
      ∀ ix, r.get ix = FVal.fin 0) :=
  ⟨by decide, by decide, by decide,
    normalize_const_zero_amended c2warr 5 (by decide) (by decide) (by decide)⟩

/-! ### Claim C3 -/

/-- A float array holding one finite element and one `+inf`. -/
def c3arr : NDArr := ⟨.float32, [2], fun ix => if ix = [0] then .fin 0 else .pinf⟩

/-- C3 counterexample: the finite elements of `c3arr` are exactly
`[0]`, yet the computed rescale range is `(0, +inf)` — `np.nanmax` does
not exclude infinities, so the range maximum is not the finite maximum. -/
theorem rescale_range_includes_inf :
    (arrElems c3arr).filter (fun v => v.isFiniteV) = [FVal.fin 0] ∧
    rescaleRange c3arr = .ok (FVal.fin 0, FVal.pinf) ∧
    FVal.pinf ≠ FVal.fin 0 :=
  ⟨rfl, rfl, by decide⟩

/-- C3 (amended): for every non-uint8 array with at least one non-NaN
element, the rescale range is the minimum and maximum over the non-NaN
elements — NaN is excluded from the range computation, but `±inf`
participate as ordinary extreme values. -/
theorem rescale_range_nonnan_amended (a : NDArr)
    (hd : a.dtype ≠ Dtype.uint8)
    (h : (arrElems a).filter (fun v => !v.isNaN) ≠ []) :
    rescaleRange a =
      .ok (listFoldV FVal.fminV ((arrElems a).filter (fun v => !v.isNaN)),
           listFoldV FVal.fmaxV ((arrElems a).filter (fun v => !v.isNaN))) := by
  have hne : arrElems a ≠ [] := by
    intro hnil
    rw [hnil] at h
    exact h rfl
  rw [rescaleRange, nanmin, if_neg hne, nanmax, if_neg hne,
    nanminList_eq_filter _ h, nanmaxList_eq_filter _ h]

/-- Witness input for the amended C3: one NaN and two finite elements. -/
def c3warr : NDArr :=
  ⟨.float32, [3], fun ix => if ix = [0] then .nan else if ix = [1] then .fin 1 else .fin 5⟩

/-- C3 amended, instantiated at `c3warr`. -/
theorem rescale_range_nonnan_amended_witness :
    c3warr.dtype ≠ Dtype.uint8 ∧
    (arrElems c3warr).filter (fun v => !v.isNaN) ≠ [] ∧
    rescaleRange c3warr =
      .ok (listFoldV FVal.fminV ((arrElems c3warr).filter (fun v => !v.isNaN)),
           listFoldV FVal.fmaxV ((arrElems c3warr).filter (fun v => !v.isNaN))) :=
  ⟨by decide, by decide, rescale_range_nonnan_amended c3warr (by decide) (by decide)⟩

/-! ### Claim C4 -/

/-- A zero-element float array. -/
def c4arr : NDArr := ⟨.float32, [0], fun _ => .fin 0⟩

/-- C4 counterexample: on the empty non-uint8 array `c4arr`,
`normalize_to_uint8` propagates `np.nanmin`'s `ValueError` — a generic
uncaught exception, not the documented `EmptyArray` error kind. -/
theorem normalize_empty_raises :
    normalize_to_uint8 c4arr = .error PyError.valueError ∧
    PyError.valueError ≠ PyError.emptyArray :=
  ⟨rfl, by decide⟩

/-- Success test on a normalize outcome. -/
def isOkE : Except PyError NDArr → Bool
  | .ok _ => true
  | .error _ => false

/-- C4 (amended): `normalize_to_uint8` succeeds exactly when the input
is uint8 or has at least one element; a zero-element array of any other
dtype makes it raise the reduction's `ValueError` (surfaced by the
route's blanket handler), not a documented `EmptyArray` error value. -/
theorem normalize_failure_semantics_amended :
    (∀ a : NDArr, isOkE (normalize_to_uint8 a) = true ↔
      (a.dtype = Dtype.uint8 ∨ a.shape.prod ≠ 0)) ∧
    (∀ a : NDArr, a.dtype ≠ Dtype.uint8 → a.shape.prod = 0 →
      normalize_to_uint8 a = .error PyError.valueError) := by
  have key : ∀ a : NDArr, a.dtype ≠ Dtype.uint8 → a.shape.prod = 0 →
      normalize_to_uint8 a = .error PyError.valueError := by
    intro a hd hp
    have hnil : arrElems a = [] := (arrElems_eq_nil_iff a).mpr hp
    have hr : rescaleRange a = .error .valueError := by
      rw [rescaleRange, nanmin, if_pos hnil]
    rw [normalize_to_uint8, if_neg hd, hr]
  refine ⟨fun a => ⟨?_, ?_⟩, key⟩
  · intro hok
    by_contra hcon
    push_neg at hcon
    rw [key a hcon.1 (by simpa using hcon.2)] at hok
    exact absurd hok (by decide)
  · rintro (hd | hp)
    · rw [normalize_to_uint8, if_pos hd]
      rfl
    · by_cases hd : a.dtype = Dtype.uint8
      · rw [normalize_to_uint8, if_pos hd]
        rfl
      · have hne : arrElems a ≠ [] := fun hnil => hp ((arrElems_eq_nil_iff a).mp hnil)
        rw [normalize_to_uint8, if_neg hd, rescaleRange, nanmin, if_neg hne,
          nanmax, if_neg hne]
        dsimp only
        split
        · rfl
        · rfl

/-- Witness input for the amended C4's failing direction. -/
def c4warr : NDArr := ⟨.int16, [3, 0], fun _ => .fin 1⟩

/-- C4 amended, instantiated: the empty int16 array `c4warr` is not ok
and raises `ValueError`. -/
theorem normalize_failure_semantics_amended_witness :
    c4warr.dtype ≠ Dtype.uint8 ∧ c4warr.shape.prod = 0 ∧
    normalize_to_uint8 c4warr = .error PyError.valueError :=
  ⟨by decide, by decide,
    normalize_failure_semantics_amended.2 c4warr (by decide) (by decide)⟩

/-! ### Claim C5 -/

/-- A float array with both elements already inside `[0, 255]`. -/
def c5arr : NDArr := ⟨.float32, [2], fun ix => if ix = [0] then .fin 10 else .fin 20⟩

/-- C5 counterexample: `c5arr` holds 10 and 20, both in the 8-bit
range, yet `normalize_to_uint8` full-stretches them to 0 and 255 — the
identity holds only for the uint8 dtype, not for every in-range array. -/
theorem normalize_in_range_not_identity :
    arrElems c5arr = [FVal.fin 10, FVal.fin 20] ∧
    ((0:ℚ) ≤ 10 ∧ (10:ℚ) ≤ 255 ∧ (0:ℚ) ≤ 20 ∧ (20:ℚ) ≤ 255) ∧
    (normalize_to_uint8 c5arr).map (fun r => (r.get [0], r.get [1])) =
      .ok (FVal.fin 0, FVal.fin 255) ∧
    FVal.fin 0 ≠ c5arr.get [0] :=
  ⟨rfl, by norm_num, by with_unfolding_all rfl, by decide⟩

/-- C5 (amended): `normalize_to_uint8` is the identity exactly on the
uint8 element type; arrays of any other dtype are min-max rescaled even
when their values already lie in `[0, 255]`. -/
theorem normalize_uint8_identity_amended (a : NDArr) (h : a.dtype = Dtype.uint8) :
    normalize_to_uint8 a = .ok a := by
  rw [normalize_to_uint8, if_pos h]

/-- Witness input for the amended C5. -/
def c5warr : NDArr := ⟨.uint8, [2], fun _ => .fin 3⟩

/-- C5 amended, instantiated at `c5warr`. -/
theorem normalize_uint8_identity_amended_witness :
    c5warr.dtype = Dtype.uint8 ∧ normalize_to_uint8 c5warr = .ok c5warr :=
  ⟨rfl, normalize_uint8_identity_amended c5warr rfl⟩

/-! ### Claim C7 -/

/-- A session that loads a 100×100 image into a 100×100 drawing area
(establishing canonical dimensions with scale 1). -/
def c7load : ClientState := setLoadedImage ⟨100, 100, 0⟩ Side.tl 100 100 initState

/-- C7 counterexample: from the loaded state `c7load` (scale 1), a
single fit-to-area/reset operation against a 1×1 drawing area sets the
scale to `1/100`, which is below the 0.05 lower bound — the scale is
not kept inside `[0.05, 20]` by every controller operation. -/
theorem reset_scale_exits_bounds :
    c7load.scale = 1 ∧
    (applyOp c7load (ViewOp.reset 1 1)).scale = 1/100 ∧
    ((1:ℚ)/100) < 1/20 := by
  refine ⟨by with_unfolding_all rfl, by with_unfolding_all rfl, by norm_num⟩

/-- C7 (amended): from any state with scale inside `[0.05, 20]`, any
sequence of zoom and pan operations keeps the scale inside
`[0.05, 20]`, and a zoom whose candidate scale would exit the range
leaves the whole state (scale and both offsets) unchanged; the
fit-to-area/reset operation, however, sets the scale to
`min(areaW/W, areaH/H)` without clamping and can leave the range. -/
theorem scale_bounds_zoom_pan_amended :
    (∀ (s : ClientState) (ops : List ViewOp),
      1/20 ≤ s.scale → s.scale ≤ 20 →
      (∀ op ∈ ops, isZoomOrPan op = true) →
      1/20 ≤ (applyOps s ops).scale ∧ (applyOps s ops).scale ≤ 20) ∧
    (∀ (s : ClientState) (x y : ℚ) (zi : Bool),
      (s.scale * (if zi then (11:ℚ)/10 else 9/10) < 1/20 ∨
       20 < s.scale * (if zi then (11:ℚ)/10 else 9/10)) →
      handleWheel x y zi s = s) := by
  have hreject : ∀ (s : ClientState) (x y : ℚ) (zi : Bool),
      (s.scale * (if zi then (11:ℚ)/10 else 9/10) < 1/20 ∨
       20 < s.scale * (if zi then (11:ℚ)/10 else 9/10)) →
      handleWheel x y zi s = s := by
    intro s x y zi hout
    rw [handleWheel]
    by_cases hg : (!truthy s.imgWidth || !truthy s.imgHeight) = true
    · rw [if_pos hg]
    · rw [if_neg hg]
      dsimp only
      rw [if_pos hout]
  have hstep : ∀ (s : ClientState) (op : ViewOp), isZoomOrPan op = true →
      1/20 ≤ s.scale → s.scale ≤ 20 →
      1/20 ≤ (applyOp s op).scale ∧ (applyOp s op).scale ≤ 20 := by
    intro s op hop h1 h2
    cases op with
    | wheel x y zi =>
      show 1/20 ≤ (handleWheel x y zi s).scale ∧ (handleWheel x y zi s).scale ≤ 20
      rw [handleWheel]
      by_cases hg : (!truthy s.imgWidth || !truthy s.imgHeight) = true
      · rw [if_pos hg]
        exact ⟨h1, h2⟩
      · rw [if_neg hg]
        dsimp only
        by_cases hrange : s.scale * (if zi then (11:ℚ)/10 else 9/10) < 1/20 ∨
            20 < s.scale * (if zi then (11:ℚ)/10 else 9/10)
        · rw [if_pos hrange]
          exact ⟨h1, h2⟩
        · rw [if_neg hrange]
          push_neg at hrange
          exact ⟨hrange.1, hrange.2⟩
    | pan dx dy => exact ⟨h1, h2⟩
    | reset rcW rcH => simp [isZoomOrPan] at hop
  have hmany : ∀ (ops : List ViewOp) (s : ClientState),
      1/20 ≤ s.scale → s.scale ≤ 20 →
      (∀ op ∈ ops, isZoomOrPan op = true) →
      1/20 ≤ (applyOps s ops).scale ∧ (applyOps s ops).scale ≤ 20 := by
    intro ops
    induction ops with
    | nil => intro s h1 h2 _; exact ⟨h1, h2⟩
    | cons op ops ih =>
      intro s h1 h2 hall
      have h := hstep s op (hall op (List.mem_cons_self _ _)) h1 h2
      exact ih _ h.1 h.2 fun op' h' => hall op' (List.mem_cons_of_mem _ h')
  exact ⟨fun s ops h1 h2 hall => hmany ops s h1 h2 hall, hreject⟩

/-- A loaded state sitting at the upper scale bound. -/
def c7wstate : ClientState :=
  { scale := 20, offsetX := 0, offsetY := 0, imgWidth := some 100,
    imgHeight := some 100, images := fun _ => none }

/-- C7 amended, instantiated: two pans from the initial state keep the
scale in range, and a zoom-in at scale 20 (candidate 22) is rejected
with the state unchanged. -/
theorem scale_bounds_zoom_pan_amended_witness :
    (1/20 ≤ (applyOps initState [ViewOp.pan 5 (-3), ViewOp.pan (-5) 3]).scale ∧
      (applyOps initState [ViewOp.pan 5 (-3), ViewOp.pan (-5) 3]).scale ≤ 20) ∧
    handleWheel 7 9 true c7wstate = c7wstate :=
  ⟨scale_bounds_zoom_pan_amended.1 initState [ViewOp.pan 5 (-3), ViewOp.pan (-5) 3]
      (by norm_num [initState]) (by norm_num [initState]) (by decide),
   scale_bounds_zoom_pan_amended.2 c7wstate 7 9 true
      (by right; with_unfolding_all norm_num [c7wstate])⟩

/-! ### Claim C8 -/

/-- C8: an accepted anchored zoom preserves the world point under the
cursor — the screen-to-world mapping before and after the step agree at
the cursor pixel, exactly over the rationals.  Each step of a sequence
of accepted zooms is an instance of this statement, so the property
holds after any such sequence. -/
theorem anchored_zoom_preserves_world (s : ClientState) (x y : ℚ) (zi : Bool)
    (hw : truthy s.imgWidth = true) (hh : truthy s.imgHeight = true)
    (hlo : 1/20 ≤ s.scale * (if zi then (11:ℚ)/10 else 9/10))
    (hhi : s.scale * (if zi then (11:ℚ)/10 else 9/10) ≤ 20) :
    (x - (handleWheel x y zi s).offsetX) / (handleWheel x y zi s).scale
      = (x - s.offsetX) / s.scale ∧
    (y - (handleWheel x y zi s).offsetY) / (handleWheel x y zi s).scale
      = (y - s.offsetY) / s.scale := by
  have hns : s.scale * (if zi then (11:ℚ)/10 else 9/10) ≠ 0 := by
    intro h0
    rw [h0] at hlo
    norm_num at hlo
  have hcond : ¬(s.scale * (if zi then (11:ℚ)/10 else 9/10) < 1/20 ∨
      20 < s.scale * (if zi then (11:ℚ)/10 else 9/10)) := by
    push_neg
    exact ⟨hlo, hhi⟩
  have hred : handleWheel x y zi s =
      { s with
          scale := s.scale * (if zi then (11:ℚ)/10 else 9/10),
          offsetX := x - (x - s.offsetX) / s.scale *
            (s.scale * (if zi then (11:ℚ)/10 else 9/10)),
          offsetY := y - (y - s.offsetY) / s.scale *
            (s.scale * (if zi then (11:ℚ)/10 else 9/10)) } := by
    simp only [handleWheel, hw, hh, Bool.not_true, Bool.or_self, Bool.false_eq_true,
      if_false, if_neg hcond]
  rw [hred]
  dsimp only
  constructor
  · rw [sub_sub_cancel, mul_div_cancel_right₀ _ hns]
  · rw [sub_sub_cancel, mul_div_cancel_right₀ _ hns]

/-- A loaded state for the C8 witness. -/
def c8state : ClientState :=
  { scale := 1, offsetX := 3, offsetY := 4, imgWidth := some 50,
    imgHeight := some 60, images := fun _ => none }

/-- C8, instantiated: a zoom-in at cursor (10, 5) from `c8state`. -/
theorem anchored_zoom_preserves_world_witness :
    truthy c8state.imgWidth = true ∧ truthy c8state.imgHeight = true ∧
    ((10:ℚ) - (handleWheel 10 5 true c8state).offsetX) / (handleWheel 10 5 true c8state).scale
      = (10 - c8state.offsetX) / c8state.scale ∧
    ((5:ℚ) - (handleWheel 10 5 true c8state).offsetY) / (handleWheel 10 5 true c8state).scale
      = (5 - c8state.offsetY) / c8state.scale :=
  ⟨by decide, by decide,
    (anchored_zoom_preserves_world c8state 10 5 true (by decide) (by decide)
      (by with_unfolding_all norm_num [c8state]) (by with_unfolding_all norm_num [c8state])).1,
    (anchored_zoom_preserves_world c8state 10 5 true (by decide) (by decide)
      (by with_unfolding_all norm_num [c8state]) (by with_unfolding_all norm_num [c8state])).2⟩

/-! ### Claim C9 -/

/-- C9: once canonical dimensions are established (truthy), a load
whose width or height disagrees is rejected with the entire client
state unchanged — the target slot keeps its previous image, no other
slot changes, and canonical dimensions and the shared transform are
untouched. -/
theorem dimension_mismatch_atomic (s : ClientState) (img : Img) (side : Side)
    (rcW rcH : ℚ)
    (hw : truthy s.imgWidth = true) (hh : truthy s.imgHeight = true)
    (hne : s.imgWidth ≠ some img.width ∨ s.imgHeight ≠ some img.height) :
    setLoadedImage img side rcW rcH s = s := by
  rw [setLoadedImage, if_neg (by simp [hw, hh]), if_pos hne]

/-- A session state with a 100×80 image loaded in the top-left slot. -/
def c9state : ClientState :=
  { scale := 1, offsetX := 0, offsetY := 0, imgWidth := some 100,
    imgHeight := some 80,
    images := fun sd => if sd = Side.tl then some ⟨100, 80, 0⟩ else none }

/-- C9, instantiated: loading a 120×80 image into the top-right slot of
`c9state` is rejected and the state is unchanged. -/
theorem dimension_mismatch_atomic_witness :
    truthy c9state.imgWidth = true ∧ truthy c9state.imgHeight = true ∧
    (c9state.imgWidth ≠ some ((120:ℚ)) ∨ c9state.imgHeight ≠ some ((80:ℚ))) ∧
    setLoadedImage ⟨120, 80, 1⟩ Side.tr 100 100 c9state = c9state :=
  ⟨by decide, by decide, Or.inl (by decide),
    dimension_mismatch_atomic c9state ⟨120, 80, 1⟩ Side.tr 100 100 (by decide) (by decide)
      (Or.inl (by decide))⟩

/-! ### Claim C10 -/

/-- C10: the upload route's response is independent of the slot path
parameter — for the same decoder, encoder, and request (same file bytes
and filename), any two slot identifiers produce identical responses,
because the handler never reads `side`. -/
theorem upload_ignores_slot (decode : String → List Nat → Except PyError NDArr)
    (encodePNG : NDArr → List Nat) (sideA sideB : String) (req : UploadReq) :
    upload decode encodePNG sideA req = upload decode encodePNG sideB req := rfl

end PolyViewer
